import Mathlib

/-!
Shallow embedding of the startup-funding dashboard pipeline (app.py):
load-time cleaning, sidebar filter criteria, the staged filter, the
investor explode, the grouped `nlargest` aggregates, the monthly trend,
the investment-type breakdown and the summary metrics.
-/

namespace Startup

/-- A parsed calendar date (only the fields the script derives are kept:
`Year` and `Month` come from `df["Date"].dt`). -/
structure CalDate where
  year : Int
  month : Nat
deriving DecidableEq, Repr

/-- A raw CSV row after the two `errors="coerce"` parses: every field that
can be missing or unparseable is an `Option` (`none` models `NaN`/`NaT`). -/
structure RawRow where
  startupName : Option String
  investorsName : Option String
  cityLocation : Option String
  industryVertical : Option String
  investmentType : Option String
  amountUSD : Option Int
  date : Option CalDate
deriving DecidableEq, Repr

/-- A working record after the `dropna` on
`["Amount in USD", "City Location", "Startup Name", "Investors Name",
"Industry Vertical"]`: those five fields are guaranteed present, while
`Date` is NOT in the dropna subset and stays optional. -/
structure Record where
  startupName : String
  investorsName : String
  cityLocation : String
  industryVertical : String
  investmentType : Option String
  amountUSD : Int
  date : Option CalDate
deriving DecidableEq, Repr

/-- `df["Year"]`: derived from the (possibly missing) date. -/
def Record.year (r : Record) : Option Int := r.date.map CalDate.year

/-- `df["Month"]`: derived from the (possibly missing) date. -/
def Record.month (r : Record) : Option Nat := r.date.map CalDate.month

/-- One row of the load-time cleaning: the row survives iff the five
columns of the `dropna` subset are all present (the date is not checked). -/
def cleanRow (r : RawRow) : Option Record :=
  match r.amountUSD, r.cityLocation, r.startupName, r.investorsName, r.industryVertical with
  | some amt, some city, some sn, some inv, some ind =>
      some { startupName := sn, investorsName := inv, cityLocation := city,
             industryVertical := ind, investmentType := r.investmentType,
             amountUSD := amt, date := r.date }
  | _, _, _, _, _ => none

/-- The load-time cleaning (lines 16-20 of app.py). -/
def clean (rows : List RawRow) : List Record :=
  rows.filterMap cleanRow

/-- The `month_map` dictionary. -/
def month_map : Nat → Option String
  | 1 => some "Jan"
  | 2 => some "Feb"
  | 3 => some "Mar"
  | 4 => some "Apr"
  | 5 => some "May"
  | 6 => some "Jun"
  | 7 => some "Jul"
  | 8 => some "Aug"
  | 9 => some "Sep"
  | 10 => some "Oct"
  | 11 => some "Nov"
  | 12 => some "Dec"
  | _ => none

/-- Python's `needle in hay` on strings, at the level of character lists:
true iff `needle` occurs as a contiguous substring of `hay`. -/
def containsChars (needle : List Char) : List Char → Bool
  | [] => needle.isEmpty
  | c :: t => needle.isPrefixOf (c :: t) || containsChars needle t

/-- Python's substring test `needle in hay` on `String`. -/
def pyIn (needle hay : String) : Bool :=
  containsChars needle.data hay.data

/-- If `sep` is a prefix of `l`, return the remainder, else `none`. -/
def dropPrefixQ : List Char → List Char → Option (List Char)
  | [], l => some l
  | _ :: _, [] => none
  | s :: ss, c :: cs => if s == c then dropPrefixQ ss cs else none

/-- Fuel-driven worker for Python's `str.split(sep)` on character lists.
With nonempty `sep`, fuel `l.length + 1` always suffices. -/
def splitGo : Nat → List Char → List Char → List Char → List (List Char)
  | 0, _, acc, _ => [acc.reverse]
  | _ + 1, _, acc, [] => [acc.reverse]
  | fuel + 1, sep, acc, c :: rest =>
    match dropPrefixQ sep (c :: rest) with
    | some l2 => acc.reverse :: splitGo fuel sep [] l2
    | none => splitGo fuel sep (c :: acc) rest

/-- Python's `s.split(sep)` (and pandas `.str.split(sep)`): split on every
occurrence of the separator, keeping empty pieces, no trimming. -/
def pySplit (sep s : String) : List String :=
  (splitGo (s.data.length + 1) sep.data [] s.data).map List.asString

/-- Strip leading and trailing whitespace (Python's `str.strip()`), used
only to state the spec's "empty after trimming whitespace" reading. -/
def trimStr (s : String) : String :=
  List.asString (((s.data.dropWhile Char.isWhitespace).reverse.dropWhile Char.isWhitespace).reverse)

/-- The sidebar selections that drive the filter (lines 26-51). -/
structure Criteria where
  selectedCity : List String
  selectedYears : List Int
  selectedMonths : List String
  selectedIndustry : String
  selectedStartups : List String
  selectedInvestors : List String
  amountRange : Int × Int
deriving DecidableEq, Repr

/-- `df["City Location"].isin(selected_city)`. -/
def cityOk (c : Criteria) (r : Record) : Bool :=
  decide (r.cityLocation ∈ c.selectedCity)

/-- `df["Year"].isin(selected_years)`: a missing year (NaN) matches nothing. -/
def yearOk (c : Criteria) (r : Record) : Bool :=
  match r.year with
  | some y => decide (y ∈ c.selectedYears)
  | none => false

/-- `df["Amount in USD"].between(lo, hi)` (inclusive on both ends). -/
def amountOk (c : Criteria) (r : Record) : Bool :=
  decide (c.amountRange.1 ≤ r.amountUSD) && decide (r.amountUSD ≤ c.amountRange.2)

/-- `filtered_df["Month"].map(month_map).isin(selected_months)`:
a missing month maps to NaN, which matches nothing. -/
def monthOk (c : Criteria) (r : Record) : Bool :=
  match r.month with
  | some m =>
    match month_map m with
    | some nm => decide (nm ∈ c.selectedMonths)
    | none => false
  | none => false

/-- The investor lambda: `any(inv in x for inv in selected_investors)` —
a Python SUBSTRING test against the raw comma-joined investor field. -/
def investorHit (c : Criteria) (r : Record) : Bool :=
  c.selectedInvestors.any (fun inv => pyIn inv r.investorsName)

/-- The staged filter of lines 57-80: base mask (city, year, amount),
then the month filter, then the three conditional filters. -/
def filtered_df (df : List Record) (c : Criteria) : List Record :=
  let s1 := df.filter (fun r => cityOk c r && yearOk c r && amountOk c r)
  let s2 := s1.filter (fun r => monthOk c r)
  let s3 := if c.selectedIndustry ≠ "All"
    then s2.filter (fun r => decide (r.industryVertical = c.selectedIndustry)) else s2
  let s4 := if c.selectedStartups ≠ []
    then s3.filter (fun r => decide (r.startupName ∈ c.selectedStartups)) else s3
  if c.selectedInvestors ≠ []
    then s4.filter (fun r => investorHit c r) else s4

/-- The industry stage as an unconditional per-record predicate. -/
def industryOk (c : Criteria) (r : Record) : Bool :=
  if c.selectedIndustry ≠ "All" then decide (r.industryVertical = c.selectedIndustry) else true

/-- The startup stage as an unconditional per-record predicate. -/
def startupOk (c : Criteria) (r : Record) : Bool :=
  if c.selectedStartups ≠ [] then decide (r.startupName ∈ c.selectedStartups) else true

/-- The investor stage as an unconditional per-record predicate. -/
def investorOk (c : Criteria) (r : Record) : Bool :=
  if c.selectedInvestors ≠ [] then investorHit c r else true

/-- The conjunction of all seven per-record tests. -/
def recordMatches (c : Criteria) (r : Record) : Bool :=
  cityOk c r && yearOk c r && amountOk c r && monthOk c r &&
  industryOk c r && startupOk c r && investorOk c r

theorem filtered_df_eq_filter (df : List Record) (c : Criteria) :
    filtered_df df c = df.filter (fun r => recordMatches c r) := by
  unfold filtered_df
  split_ifs <;>
    simp only [List.filter_filter] <;>
    (apply List.filter_congr; intro r _;
     simp_all [recordMatches, industryOk, startupOk, investorOk,
       Bool.and_assoc, Bool.and_comm, Bool.and_left_comm])

/-- Descending comparison on the summed value, used to model `nlargest`
(which sorts descending and is stable w.r.t. the incoming order). -/
def sndGe {α β : Type} [LE β] (a b : α × β) : Prop := b.2 ≤ a.2

instance {α β : Type} [LinearOrder β] : DecidableRel (@sndGe α β _) :=
  fun a b => inferInstanceAs (Decidable (b.2 ≤ a.2))

instance {α β : Type} [LinearOrder β] : IsTotal (α × β) sndGe :=
  ⟨fun a b => le_total b.2 a.2⟩

instance {α β : Type} [LinearOrder β] : IsTrans (α × β) sndGe :=
  ⟨fun _ _ _ h1 h2 => le_trans h2 h1⟩

/-- Code-point lexicographic comparison of character lists (the order
Python uses to compare strings). -/
def lexLeB : List Char → List Char → Bool
  | [], _ => true
  | _ :: _, [] => false
  | a :: as, b :: bs =>
    if a.val.toNat < b.val.toNat then true
    else if b.val.toNat < a.val.toNat then false
    else lexLeB as bs

theorem lexLeB_total : ∀ a b : List Char, lexLeB a b = true ∨ lexLeB b a = true
  | [], _ => Or.inl rfl
  | _ :: _, [] => Or.inr rfl
  | a :: as, b :: bs => by
    simp only [lexLeB]
    split_ifs <;>
      first
      | exact Or.inl rfl
      | exact Or.inr rfl
      | omega
      | exact lexLeB_total as bs

theorem lexLeB_trans : ∀ a b c : List Char,
    lexLeB a b = true → lexLeB b c = true → lexLeB a c = true
  | [], _, _, _, _ => rfl
  | _ :: _, [], _, h1, _ => by simp [lexLeB] at h1
  | _ :: _, _ :: _, [], _, h2 => by simp [lexLeB] at h2
  | a :: as, b :: bs, c :: cs, h1, h2 => by
    simp only [lexLeB] at h1 h2 ⊢
    split_ifs at h1 h2 ⊢ <;>
      first
      | rfl
      | omega
      | exact lexLeB_trans as bs cs h1 h2

/-- Python's string comparison, as a relation on `String`. -/
def strLe (s t : String) : Prop := lexLeB s.data t.data = true

instance : DecidableRel strLe :=
  fun s t => inferInstanceAs (Decidable (lexLeB s.data t.data = true))

instance : IsTotal String strLe := ⟨fun s t => lexLeB_total s.data t.data⟩

instance : IsTrans String strLe := ⟨fun a b c => lexLeB_trans a.data b.data c.data⟩

/-- The distinct group keys in the order `groupby` enumerates them:
sorted ascending (pandas `groupby` sorts group keys by default). -/
def sortedKeys (rows : List (String × Int)) : List String :=
  ((rows.map Prod.fst).dedup).insertionSort strLe

/-- The summed `Amount in USD` of the rows carrying key `k`. -/
def sumForKey (rows : List (String × Int)) (k : String) : Int :=
  ((rows.filter (fun p => p.1 = k)).map Prod.snd).sum

/-- `rows.groupby(key)["Amount in USD"].sum()`: one (key, sum) pair per
distinct key, keys in ascending order. -/
def groupSums (rows : List (String × Int)) : List (String × Int) :=
  (sortedKeys rows).map (fun k => (k, sumForKey rows k))

/-- `groupby(key)["Amount in USD"].sum().nlargest(n)`: stable descending
sort of the key-sorted group sums, truncated to `n` entries. -/
def top_n_by_sum (rows : List (String × Int)) (n : Int) : List (String × Int) :=
  ((groupSums rows).insertionSort sndGe).take n.toNat

/-- The number of distinct group keys among the rows. -/
def numGroups (rows : List (String × Int)) : Nat :=
  ((rows.map Prod.fst).dedup).length

/-- The investor fan-out of lines 121-124: split the raw field on `", "`,
explode one row per piece (each carrying the record's full amount), then
drop rows whose investor is exactly `"Undisclosed Investors"` or exactly
the empty string (no whitespace trimming). -/
def explode_investors (s : List Record) : List (String × Int) :=
  (s.flatMap (fun r => (pySplit ", " r.investorsName).map (fun nm => (nm, r.amountUSD)))).filter
    (fun p => decide (p.1 ∉ (["Undisclosed Investors", ""] : List String)))

/-- The per-record list of investor entries that survive the exclusion. -/
def validInvestorEntries (r : Record) : List String :=
  (pySplit ", " r.investorsName).filter
    (fun nm => decide (nm ∉ (["Undisclosed Investors", ""] : List String)))

/-- The distinct months (NaN dropped, as `groupby` drops NaN keys). -/
def presentMonths (s : List Record) : List Nat :=
  (s.filterMap Record.month).dedup

/-- The summed amount of the records falling in month `m`. -/
def monthSum (s : List Record) (m : Nat) : Int :=
  ((s.filter (fun r => r.month = some m)).map Record.amountUSD).sum

/-- `filtered_df.groupby("Month")["Amount in USD"].sum()` (lines 140-143):
one entry per month present, months ascending, summing the amounts. -/
def monthly_trend (s : List Record) : List (Nat × Int) :=
  ((presentMonths s).insertionSort (· ≤ ·)).map (fun m => (m, monthSum s m))

/-- `filtered_df["Investment Type"].value_counts()`: occurrence counts of
the non-missing investment types, sorted descending by count. -/
def invTypeCounts (s : List Record) : List (String × Nat) :=
  let vals := s.filterMap Record.investmentType
  ((vals.dedup).map (fun t => (t, (vals.filter (fun v => v = t)).length))).insertionSort sndGe

/-- The three key metrics of lines 87-89. -/
structure Metrics where
  total : Int
  count : Nat
  mean : Option Rat
deriving DecidableEq, Repr

/-- `total_funding`, `total_deals`, `avg_ticket`: pandas `.mean()` of an
empty column is NaN, modelled as `none`. -/
def summary_metrics (s : List Record) : Metrics :=
  { total := (s.map Record.amountUSD).sum
    count := s.length
    mean := if s.length = 0 then none
      else some (((s.map Record.amountUSD).sum : Rat) / (s.length : Rat)) }

/-- Key/amount pairs grouped by startup name. -/
def startupPairs (s : List Record) : List (String × Int) :=
  s.map (fun r => (r.startupName, r.amountUSD))

/-- Key/amount pairs grouped by industry vertical. -/
def industryPairs (s : List Record) : List (String × Int) :=
  s.map (fun r => (r.industryVertical, r.amountUSD))

/-- Key/amount pairs grouped by city. -/
def cityPairs (s : List Record) : List (String × Int) :=
  s.map (fun r => (r.cityLocation, r.amountUSD))

/-- `top_startups` (lines 109-112): over the fully filtered subset. -/
def top_startups (df : List Record) (c : Criteria) (n : Int) : List (String × Int) :=
  top_n_by_sum (startupPairs (filtered_df df c)) n

/-- `top_investors` (lines 125-128): over the exploded filtered subset. -/
def top_investors (df : List Record) (c : Criteria) (n : Int) : List (String × Int) :=
  top_n_by_sum (explode_investors (filtered_df df c)) n

/-- `top_industries` (lines 153-156): over the fully filtered subset. -/
def top_industries (df : List Record) (c : Criteria) (n : Int) : List (String × Int) :=
  top_n_by_sum (industryPairs (filtered_df df c)) n

/-- `top_cities` (lines 168-172): over `df[df["Year"].isin(selected_years)]` —
the FULL dataset restricted only by the year criterion. -/
def top_cities (df : List Record) (c : Criteria) (n : Int) : List (String × Int) :=
  top_n_by_sum (cityPairs (df.filter (fun r => yearOk c r))) n

/-- `inv_type_counts` (line 182): over the fully filtered subset. -/
def inv_type_view (df : List Record) (c : Criteria) : List (String × Nat) :=
  invTypeCounts (filtered_df df c)

/-- All chart/metric outputs of one script run. -/
structure Views where
  metrics : Metrics
  startupsTop : List (String × Int)
  investorsTop : List (String × Int)
  trend : List (Nat × Int)
  industriesTop : List (String × Int)
  citiesTop : List (String × Int)
  invTypes : List (String × Nat)
deriving DecidableEq, Repr

/-- The script's named dataframe bindings: the loaded dataset `df`, the
`filtered_df` binding and the `investor_df` working copy.  The explode
writes only `investorFrame` (the source mutates a `.copy()`). -/
structure Store where
  df : List Record
  filtered : List Record
  investorFrame : List (String × Int)
deriving DecidableEq, Repr

/-- One top-to-bottom run of the script body for one set of sidebar
selections: rebind `filtered_df`, build the investor copy, compute every
view.  Returns the outputs together with the final store. -/
def runQuery (c : Criteria) (n : Int) (st : Store) : Views × Store :=
  let st1 : Store := { st with filtered := filtered_df st.df c }
  let st2 : Store := { st1 with investorFrame := explode_investors st1.filtered }
  ({ metrics := summary_metrics st2.filtered
     startupsTop := top_n_by_sum (startupPairs st2.filtered) n
     investorsTop := top_n_by_sum st2.investorFrame n
     trend := monthly_trend st2.filtered
     industriesTop := top_n_by_sum (industryPairs st2.filtered) n
     citiesTop := top_n_by_sum (cityPairs (st2.df.filter (fun r => yearOk c r))) n
     invTypes := invTypeCounts st2.filtered }, st2)

/-- A session: one script re-run per user interaction, threading the store. -/
def runMany (st : Store) : List (Criteria × Int) → Store
  | [] => st
  | q :: qs => runMany (runQuery q.1 q.2 st).2 qs

/-- The store at process start, right after the load-time cleaning. -/
def initialStore (df : List Record) : Store :=
  { df := df, filtered := [], investorFrame := [] }

/-- Record A of the spec's concrete scenario, with a November sibling. -/
def recA : Record :=
  { startupName := "S1", investorsName := "ABC Capital", cityLocation := "CityX",
    industryVertical := "Tech", investmentType := some "Seed Funding",
    amountUSD := 1000000, date := some { year := 2015, month := 1 } }

/-- A second record in a different city, same year. -/
def recB : Record :=
  { startupName := "S2", investorsName := "Inv1, Inv2", cityLocation := "CityY",
    industryVertical := "Tech", investmentType := some "Private Equity",
    amountUSD := 2000000, date := some { year := 2015, month := 2 } }

/-- Criteria restricting to CityX/2015 with an investor selection. -/
def critSub : Criteria :=
  { selectedCity := ["CityX"], selectedYears := [2015],
    selectedMonths := ["Jan", "Feb"], selectedIndustry := "All",
    selectedStartups := [], selectedInvestors := ["Capital"],
    amountRange := (0, 5000000) }

/-- Criteria with every field at its "no restriction" setting for `[recA]`. -/
def critAll : Criteria :=
  { selectedCity := ["CityX"], selectedYears := [2015],
    selectedMonths := ["Jan"], selectedIndustry := "All",
    selectedStartups := [], selectedInvestors := [],
    amountRange := (0, 5000000) }

theorem cityOk_iff (c : Criteria) (r : Record) :
    cityOk c r = true ↔ r.cityLocation ∈ c.selectedCity := by
  simp [cityOk]

theorem yearOk_iff (c : Criteria) (r : Record) :
    yearOk c r = true ↔ ∃ y, r.year = some y ∧ y ∈ c.selectedYears := by
  unfold yearOk
  rcases hy : r.year with _ | y <;> simp [hy]

theorem amountOk_iff (c : Criteria) (r : Record) :
    amountOk c r = true ↔
      c.amountRange.1 ≤ r.amountUSD ∧ r.amountUSD ≤ c.amountRange.2 := by
  simp [amountOk]

theorem monthOk_iff (c : Criteria) (r : Record) :
    monthOk c r = true ↔
      ∃ m nm, r.month = some m ∧ month_map m = some nm ∧ nm ∈ c.selectedMonths := by
  unfold monthOk
  rcases hm : r.month with _ | m
  · simp [hm]
  · rcases hmm : month_map m with _ | nm <;> simp [hm, hmm]

theorem industryOk_iff (c : Criteria) (r : Record) :
    industryOk c r = true ↔
      (c.selectedIndustry ≠ "All" → r.industryVertical = c.selectedIndustry) := by
  unfold industryOk
  split_ifs with h <;> simp [h]

theorem startupOk_iff (c : Criteria) (r : Record) :
    startupOk c r = true ↔
      (c.selectedStartups ≠ [] → r.startupName ∈ c.selectedStartups) := by
  unfold startupOk
  split_ifs with h <;> simp [h]

theorem investorOk_iff (c : Criteria) (r : Record) :
    investorOk c r = true ↔
      (c.selectedInvestors ≠ [] →
        ∃ inv ∈ c.selectedInvestors, pyIn inv r.investorsName = true) := by
  unfold investorOk investorHit
  split_ifs with h <;> simp [h, List.any_eq_true]

theorem recordMatches_iff (c : Criteria) (r : Record) :
    recordMatches c r = true ↔
      r.cityLocation ∈ c.selectedCity ∧
      (∃ y, r.year = some y ∧ y ∈ c.selectedYears) ∧
      (c.amountRange.1 ≤ r.amountUSD ∧ r.amountUSD ≤ c.amountRange.2) ∧
      (∃ m nm, r.month = some m ∧ month_map m = some nm ∧ nm ∈ c.selectedMonths) ∧
      (c.selectedIndustry ≠ "All" → r.industryVertical = c.selectedIndustry) ∧
      (c.selectedStartups ≠ [] → r.startupName ∈ c.selectedStartups) ∧
      (c.selectedInvestors ≠ [] →
        ∃ inv ∈ c.selectedInvestors, pyIn inv r.investorsName = true) := by
  simp only [recordMatches, Bool.and_eq_true, cityOk_iff, yearOk_iff, amountOk_iff,
    monthOk_iff, industryOk_iff, startupOk_iff, investorOk_iff, and_assoc]

theorem mem_of_mem_filtered_df {df : List Record} {c : Criteria} {r : Record}
    (h : r ∈ filtered_df df c) : r ∈ df := by
  rw [filtered_df_eq_filter] at h
  exact (List.mem_filter.mp h).1

/-- C1 (amended): `filtered_df` returns exactly the records of the dataset
satisfying the conjunction of all supplied predicates — AND across fields,
membership within each multi-valued field — except that a record matches
the investor criterion iff one of the selected names occurs as a SUBSTRING
of the record's raw comma-joined investor field (not necessarily as a
member of its split investor-name list). -/
theorem filter_conjunction_semantics (df : List Record) (c : Criteria) (r : Record) :
    r ∈ filtered_df df c ↔
      r ∈ df ∧
      r.cityLocation ∈ c.selectedCity ∧
      (∃ y, r.year = some y ∧ y ∈ c.selectedYears) ∧
      (c.amountRange.1 ≤ r.amountUSD ∧ r.amountUSD ≤ c.amountRange.2) ∧
      (∃ m nm, r.month = some m ∧ month_map m = some nm ∧ nm ∈ c.selectedMonths) ∧
      (c.selectedIndustry ≠ "All" → r.industryVertical = c.selectedIndustry) ∧
      (c.selectedStartups ≠ [] → r.startupName ∈ c.selectedStartups) ∧
      (c.selectedInvestors ≠ [] →
        ∃ inv ∈ c.selectedInvestors, pyIn inv r.investorsName = true) := by
  rw [filtered_df_eq_filter, List.mem_filter, recordMatches_iff]

/-- C1 witness: the characterization applied at a concrete dataset. -/
theorem filter_conjunction_semantics_witness :
    recA ∈ filtered_df [recA, recB] critSub ∧ recB ∉ filtered_df [recA, recB] critSub :=
  ⟨(filter_conjunction_semantics [recA, recB] critSub recA).mpr
     ⟨by decide, by decide, ⟨2015, rfl, by decide⟩, ⟨by decide, by decide⟩,
      ⟨1, "Jan", rfl, rfl, by decide⟩, by decide, by decide,
      fun _ => ⟨"Capital", by decide, by decide⟩⟩,
   fun h =>
     absurd ((filter_conjunction_semantics [recA, recB] critSub recB).mp h).2.1 (by decide)⟩

/-- C1 counterexample: with selected investor `"Capital"`, the record whose
raw investor field is `"ABC Capital"` is returned by the filter, although
`"Capital"` is not a member of its investor-name list `["ABC Capital"]` —
the code tests substrings, the claim requires list membership. -/
theorem filter_investor_substring_cex :
    recA ∈ filtered_df [recA] critSub ∧
    critSub.selectedInvestors ≠ [] ∧
    ¬ ∃ inv ∈ critSub.selectedInvestors, inv ∈ pySplit ", " recA.investorsName := by
  decide

/-- C2 counterexample: an EMPTY cities criterion is not a no-op — it
matches nothing, so the filter returns the empty subset on a nonempty
dataset instead of the full dataset. -/
theorem filter_empty_city_not_noop_cex :
    ({ critAll with selectedCity := [] } : Criteria).selectedCity = [] ∧
    filtered_df [recA] { critAll with selectedCity := [] } = [] ∧
    [recA] ≠ ([] : List Record) := by
  decide

/-- C2 (amended): an empty startups or investors criterion and the
industry sentinel `"All"` are no-ops; for cities, years and months the
no-restriction setting is selecting every value present in the dataset (an
empty multiselect matches nothing).  With cities/years/months covering
every record, industry `"All"`, startups and investors empty and the
amount range spanning all amounts, the filter returns the full dataset
unchanged. -/
theorem filter_all_no_restriction (df : List Record) (c : Criteria)
    (hcity : ∀ r ∈ df, r.cityLocation ∈ c.selectedCity)
    (hyear : ∀ r ∈ df, yearOk c r = true)
    (hmonth : ∀ r ∈ df, monthOk c r = true)
    (hamt : ∀ r ∈ df, c.amountRange.1 ≤ r.amountUSD ∧ r.amountUSD ≤ c.amountRange.2)
    (hind : c.selectedIndustry = "All")
    (hst : c.selectedStartups = [])
    (hinv : c.selectedInvestors = []) :
    filtered_df df c = df := by
  rw [filtered_df_eq_filter]
  apply List.filter_eq_self.mpr
  intro r hr
  have h1 := hcity r hr
  have h2 := hyear r hr
  have h3 := hmonth r hr
  have h4 := hamt r hr
  simp [recordMatches, cityOk, amountOk, industryOk, startupOk, investorOk,
    hind, hst, hinv, h1, h2, h3, h4.1, h4.2]

/-- C2 witness: the no-restriction settings for the one-record dataset. -/
theorem filter_all_no_restriction_witness : filtered_df [recA] critAll = [recA] :=
  filter_all_no_restriction [recA] critAll (by decide) (by decide) (by decide)
    (by decide) rfl rfl rfl

/-- C8: the filter is idempotent — re-filtering an already-filtered subset
with the same criteria returns it unchanged. -/
theorem filter_idempotent (df : List Record) (c : Criteria) :
    filtered_df (filtered_df df c) c = filtered_df df c := by
  rw [filtered_df_eq_filter, filtered_df_eq_filter, List.filter_filter]
  apply List.filter_congr
  intro r _
  simp

/-- Criteria that keep CityX but whose months admit both demo records. -/
def critCityX : Criteria :=
  { selectedCity := ["CityX"], selectedYears := [2015],
    selectedMonths := ["Jan", "Feb"], selectedIndustry := "All",
    selectedStartups := [], selectedInvestors := [],
    amountRange := (0, 5000000) }

/-- C3 counterexample: with a city criterion excluding CityY, the
top-cities chart still ranks CityY — it is computed over the full dataset
restricted only by the selected years, not over the filtered subset. -/
theorem top_cities_not_over_filtered_cex :
    top_cities [recA, recB] critCityX 10 ≠
      top_n_by_sum (cityPairs (filtered_df [recA, recB] critCityX)) 10 ∧
    ("CityY", 2000000) ∈ top_cities [recA, recB] critCityX 10 ∧
    ∀ r ∈ filtered_df [recA, recB] critCityX, r.cityLocation ≠ "CityY" := by
  decide

/-- C3 (amended): the top-startups, top-investors, top-industries and
investment-type views are functions of the filtered subset alone (equal
filtered subsets give equal views); the top-cities view instead is the
ranked aggregate of the full dataset restricted only by the year
criterion. -/
theorem views_over_filtered_subset (df df2 : List Record) (c c2 : Criteria) (n : Int)
    (h : filtered_df df c = filtered_df df2 c2) :
    top_startups df c n = top_startups df2 c2 n ∧
    top_investors df c n = top_investors df2 c2 n ∧
    top_industries df c n = top_industries df2 c2 n ∧
    inv_type_view df c = inv_type_view df2 c2 ∧
    top_cities df c n = top_n_by_sum (cityPairs (df.filter (fun r => yearOk c r))) n := by
  refine ⟨?_, ?_, ?_, ?_, rfl⟩ <;>
    simp [top_startups, top_investors, top_industries, inv_type_view, h]

/-- C3 witness: the dependence lemma at a concrete instantiation. -/
theorem views_over_filtered_subset_witness :
    top_startups [recA] critAll 3 = top_startups [recA] critAll 3 ∧
    top_investors [recA] critAll 3 = top_investors [recA] critAll 3 ∧
    top_industries [recA] critAll 3 = top_industries [recA] critAll 3 ∧
    inv_type_view [recA] critAll = inv_type_view [recA] critAll ∧
    top_cities [recA] critAll 3 =
      top_n_by_sum (cityPairs ([recA].filter (fun r => yearOk critAll r))) 3 :=
  views_over_filtered_subset [recA] [recA] critAll critAll 3 rfl

/-- A record whose raw investor field is `"A,  , A"`: it splits into
`["A", " ", "A"]` — a duplicate name and a whitespace-only entry. -/
def recDup : Record :=
  { startupName := "S3", investorsName := "A,  , A", cityLocation := "CityX",
    industryVertical := "Tech", investmentType := none,
    amountUSD := 7, date := some { year := 2015, month := 1 } }

/-- The claim's reading of the fan-out count: entries excluded when equal
to "Undisclosed Investors" or empty after trimming whitespace, counted
distinctly per record.  (Stated from the spec's words, for comparison.) -/
def specDistinctInvestorCount (r : Record) : Nat :=
  (((pySplit ", " r.investorsName).filter
    (fun nm => decide (trimStr nm ≠ "") && decide (nm ≠ "Undisclosed Investors"))).dedup).length

/-- C4 counterexample: on the record with raw field `"A,  , A"` the code
emits 3 rows (duplicates kept, the whitespace-only entry kept because only
the exact empty string is excluded), while the claimed count — distinct
names, whitespace-trimmed exclusion — is 1. -/
theorem explode_investors_count_cex :
    (explode_investors [recDup]).length = 3 ∧
    ([recDup].map specDistinctInvestorCount).sum = 1 ∧
    (" ", 7) ∈ explode_investors [recDup] := by
  decide

theorem explode_eq_flatMap (s : List Record) :
    explode_investors s =
      s.flatMap (fun r => (validInvestorEntries r).map (fun nm => (nm, r.amountUSD))) := by
  induction s with
  | nil => rfl
  | cons r t ih =>
    unfold explode_investors validInvestorEntries at *
    simp only [List.flatMap_cons, List.filter_append, ih, List.filter_map]
    rfl

/-- C4 (amended): `explode_investors` yields, for each record, one row per
split entry that is not exactly `"Undisclosed Investors"` and not exactly
the empty string (no whitespace trimming, duplicate names kept), each row
carrying the record's full amount; a record with zero surviving entries
contributes zero rows, and the total row count is the sum over records of
the number of surviving entries counted with multiplicity. -/
theorem explode_investors_rows (s : List Record) :
    explode_investors s =
      s.flatMap (fun r => (validInvestorEntries r).map (fun nm => (nm, r.amountUSD))) ∧
    (explode_investors s).length =
      (s.map (fun r => (validInvestorEntries r).length)).sum := by
  refine ⟨explode_eq_flatMap s, ?_⟩
  rw [explode_eq_flatMap s]
  induction s with
  | nil => rfl
  | cons r t ih =>
    simp only [List.flatMap_cons, List.length_append, List.length_map, List.map_cons,
      List.sum_cons, ih]

theorem runMany_df (st : Store) (qs : List (Criteria × Int)) :
    (runMany st qs).df = st.df := by
  induction qs generalizing st with
  | nil => rfl
  | cons q t ih => exact ih _

/-- C9: no run of the script mutates the loaded dataset — after any
sequence of queries the dataset binding still holds the original records;
each run rebinds `filtered_df` to the filter of the ORIGINAL dataset, and
the investor fan-out (which rewrites a column on a `.copy()`) leaves the
filtered subset's records — their `investor_names` field included — the
untouched records of the dataset. -/
theorem engine_never_mutates (df : List Record) (qs : List (Criteria × Int)) :
    (runMany (initialStore df) qs).df = df ∧
    (∀ c n st, ((runQuery c n st).2.df = st.df) ∧
      ((runQuery c n st).2.filtered = filtered_df st.df c) ∧
      ∀ r ∈ (runQuery c n st).2.filtered, r ∈ st.df) := by
  refine ⟨runMany_df _ qs, fun c n st => ⟨rfl, rfl, fun r hr => ?_⟩⟩
  exact mem_of_mem_filtered_df hr

/-- C9 witness: a concrete two-query session. -/
theorem engine_never_mutates_witness :
    (runMany (initialStore [recA, recB]) [(critSub, 10), (critAll, 3)]).df = [recA, recB] ∧
    (runQuery critSub 10 (initialStore [recA, recB])).2.filtered =
      filtered_df [recA, recB] critSub :=
  ⟨(engine_never_mutates [recA, recB] [(critSub, 10), (critAll, 3)]).1,
   ((engine_never_mutates [recA, recB] []).2 critSub 10 (initialStore [recA, recB])).2.1⟩

/-- A raw row with every dropna-checked field present but no parseable date. -/
def rawNoDate : RawRow :=
  { startupName := some "S4", investorsName := some "Inv1",
    cityLocation := some "CityX", industryVertical := some "Tech",
    investmentType := none, amountUSD := some 100, date := none }

/-- C10 counterexample: the dropna subset does not include `Date`, so a
row with an unparseable date is NOT dropped at load. -/
theorem clean_keeps_dateless_row_cex :
    rawNoDate.date = none ∧ clean [rawNoDate] ≠ [] := by
  decide

/-- C10 (amended): load-time cleaning drops exactly the rows missing one
of amount_usd, city, startup_name, investor_names or industry; the date is
not checked (rows with unparseable dates are retained with null
year/month), and every record of any filtered subset is still a record of
the cleaned dataset, so the five-field invariant is preserved by the
subsequent operations. -/
theorem clean_invariant (rows : List RawRow) (c : Criteria) :
    (∀ raw, (cleanRow raw).isSome ↔
      (raw.amountUSD ≠ none ∧ raw.cityLocation ≠ none ∧ raw.startupName ≠ none ∧
       raw.investorsName ≠ none ∧ raw.industryVertical ≠ none)) ∧
    (∀ r ∈ filtered_df (clean rows) c, r ∈ clean rows) := by
  constructor
  · intro raw
    unfold cleanRow
    rcases h1 : raw.amountUSD with _ | a <;>
      rcases h2 : raw.cityLocation with _ | ci <;>
        rcases h3 : raw.startupName with _ | sn <;>
          rcases h4 : raw.investorsName with _ | iv <;>
            rcases h5 : raw.industryVertical with _ | ind <;>
              simp [h1, h2, h3, h4, h5]
  · intro r hr
    exact mem_of_mem_filtered_df hr

/-- C10 witness: the characterization at the concrete date-less row. -/
theorem clean_invariant_witness :
    (cleanRow rawNoDate).isSome ∧
    ∀ r ∈ filtered_df (clean [rawNoDate]) critAll, r ∈ clean [rawNoDate] :=
  ⟨((clean_invariant [rawNoDate] critAll).1 rawNoDate).mpr (by decide),
   (clean_invariant [rawNoDate] critAll).2⟩

/-- C6: the summary metrics report total = sum of amounts, count = number
of records, mean = total / count when the subset is nonempty, and an
absent mean (the NaN sentinel, no exception) on an empty subset. -/
theorem summary_metrics_spec (s : List Record) :
    (summary_metrics s).total = (s.map Record.amountUSD).sum ∧
    (summary_metrics s).count = s.length ∧
    (0 < (summary_metrics s).count →
      (summary_metrics s).mean =
        some (((summary_metrics s).total : Rat) / ((summary_metrics s).count : Rat))) ∧
    ((summary_metrics s).count = 0 → (summary_metrics s).mean = none) := by
  refine ⟨rfl, rfl, ?_, ?_⟩
  · intro h
    have hne : s.length ≠ 0 := Nat.pos_iff_ne_zero.mp h
    simp [summary_metrics, hne]
  · intro h
    have h0 : s.length = 0 := h
    simp [summary_metrics, h0]

/-- C6 witness: a nonempty and an empty subset. -/
theorem summary_metrics_spec_witness :
    0 < (summary_metrics [recA, recB]).count ∧
    (summary_metrics [recA, recB]).mean =
      some (((summary_metrics [recA, recB]).total : Rat) /
            ((summary_metrics [recA, recB]).count : Rat)) ∧
    (summary_metrics ([] : List Record)).mean = none :=
  ⟨by decide, (summary_metrics_spec [recA, recB]).2.2.1 (by decide),
   (summary_metrics_spec []).2.2.2 rfl⟩

/-- C7: the monthly trend has exactly one entry per month present in the
subset, carries the per-month amount sums, is ordered chronologically
(non-decreasing month), and omits months absent from the subset. -/
theorem monthly_trend_spec (s : List Record) :
    List.Sorted (fun p q : Nat × Int => p.1 ≤ q.1) (monthly_trend s) ∧
    ((monthly_trend s).map Prod.fst).Nodup ∧
    (∀ p ∈ monthly_trend s, (∃ r ∈ s, r.month = some p.1) ∧ p.2 = monthSum s p.1) ∧
    (∀ m : Nat, (∃ r ∈ s, r.month = some m) → ∃ x ∈ monthly_trend s, x.1 = m) := by
  have hsorted := List.sorted_insertionSort (α := Nat) (· ≤ ·) (presentMonths s)
  have hkeys : (monthly_trend s).map Prod.fst =
      (presentMonths s).insertionSort (· ≤ ·) := by
    simp only [monthly_trend, List.map_map]
    exact List.map_id _
  refine ⟨?_, ?_, ?_, ?_⟩
  · exact hsorted.map _ (fun a b h => h)
  · rw [hkeys]
    exact ((List.perm_insertionSort _ _).nodup_iff).mpr (List.nodup_dedup _)
  · intro p hp
    rcases List.mem_map.mp hp with ⟨m, hm, rfl⟩
    have hm2 : m ∈ presentMonths s := (List.mem_insertionSort _).mp hm
    rcases List.mem_filterMap.mp ((List.mem_dedup).mp hm2) with ⟨r, hr, hrm⟩
    exact ⟨⟨r, hr, hrm⟩, rfl⟩
  · intro m ⟨r, hr, hrm⟩
    have hm2 : m ∈ presentMonths s :=
      (List.mem_dedup).mpr (List.mem_filterMap.mpr ⟨r, hr, hrm⟩)
    have hm3 : m ∈ (presentMonths s).insertionSort (· ≤ ·) :=
      (List.mem_insertionSort _).mpr hm2
    exact ⟨(m, monthSum s m), List.mem_map.mpr ⟨m, hm3, rfl⟩, rfl⟩

/-- C7 witness: the characterization at a concrete two-record subset. -/
theorem monthly_trend_spec_witness :
    (∀ p ∈ monthly_trend [recA, recB],
      (∃ r ∈ [recA, recB], r.month = some p.1) ∧ p.2 = monthSum [recA, recB] p.1) ∧
    (∃ x ∈ monthly_trend [recA, recB], x.1 = 2) :=
  ⟨(monthly_trend_spec [recA, recB]).2.2.1,
   (monthly_trend_spec [recA, recB]).2.2.2 2 ⟨recB, by decide, by decide⟩⟩

/-- The order `nlargest` actually realizes on group sums: descending by
sum, and ascending by group key among equal sums. -/
def rankLe (p q : String × Int) : Prop :=
  q.2 < p.2 ∨ (q.2 = p.2 ∧ strLe p.1 q.1)

theorem orderedInsert_rankLe (a : String × Int) :
    ∀ l : List (String × Int), List.Sorted rankLe l →
      (∀ b ∈ l, b.2 = a.2 → strLe a.1 b.1) →
      List.Sorted rankLe (List.orderedInsert sndGe a l)
  | [], _, _ => List.sorted_singleton a
  | b :: l, hl, ha => by
    by_cases hab : sndGe a b
    · rw [List.orderedInsert_of_le _ _ hab]
      refine List.sorted_cons.mpr ⟨?_, hl⟩
      have hab' : b.2 ≤ a.2 := hab
      intro x hx
      rcases List.mem_cons.mp hx with rfl | hx
      · rcases lt_or_eq_of_le hab' with hlt | heq
        · exact Or.inl hlt
        · exact Or.inr ⟨heq, ha x (List.mem_cons_self _ _) heq⟩
      · have hbx := List.rel_of_sorted_cons hl x hx
        rcases hbx with hlt | ⟨heq, _⟩
        · exact Or.inl (lt_of_lt_of_le hlt hab')
        · rcases lt_or_eq_of_le hab' with hlt2 | heq2
          · exact Or.inl (heq ▸ hlt2)
          · exact Or.inr ⟨heq.trans heq2, ha x (List.mem_cons_of_mem _ hx) (heq.trans heq2)⟩
    · have step : List.orderedInsert sndGe a (b :: l) =
          b :: List.orderedInsert sndGe a l := by
        simp only [List.orderedInsert, if_neg hab]
      rw [step]
      refine List.sorted_cons.mpr
        ⟨?_, orderedInsert_rankLe a l hl.of_cons
              (fun x hx h2 => ha x (List.mem_cons_of_mem _ hx) h2)⟩
      intro x hx
      rcases (List.mem_orderedInsert sndGe).mp hx with rfl | hx
      · have hab' : ¬ b.2 ≤ x.2 := hab
        exact Or.inl (lt_of_not_le hab')
      · exact List.rel_of_sorted_cons hl x hx

theorem insertionSort_rankLe :
    ∀ l : List (String × Int), List.Pairwise (fun p q => strLe p.1 q.1) l →
      List.Sorted rankLe (List.insertionSort sndGe l)
  | [], _ => List.sorted_nil
  | a :: t, hl => by
    apply orderedInsert_rankLe a _ (insertionSort_rankLe t hl.of_cons)
    intro b hb _
    exact List.rel_of_pairwise_cons hl ((List.mem_insertionSort sndGe).mp hb)

theorem groupSums_keys_pairwise (rows : List (String × Int)) :
    List.Pairwise (fun p q : String × Int => strLe p.1 q.1) (groupSums rows) :=
  (List.sorted_insertionSort strLe ((rows.map Prod.fst).dedup)).map _ (fun _ _ h => h)

/-- C5 counterexample: with rows `[("B", 5), ("A", 5)]` and `n = 1` the two
groups tie at sum 5; the claim's stable first-encountered tie-break
predicts `("B", 5)`, but `groupby` enumerates groups in ascending key
order and `nlargest` keeps `("A", 5)`. -/
theorem top_n_ties_not_first_encountered_cex :
    top_n_by_sum [("B", 5), ("A", 5)] 1 = [("A", 5)] ∧
    top_n_by_sum [("B", 5), ("A", 5)] 1 ≠ [("B", 5)] := by
  decide

/-- C5 (amended): `top_n_by_sum` groups rows by key, sums amounts per
group, and returns a sequence sorted descending by sum of length
`min n #groups`; ties are broken by ascending group key (groupby
enumerates groups in sorted key order and `nlargest` selects stably over
that order), not by first-encountered group; `n ≤ 0` yields the empty
sequence and `n` at least the number of groups yields all groups; every
returned pair is a distinct key of the rows with its group sum. -/
theorem top_n_by_sum_spec (rows : List (String × Int)) (n : Int) :
    List.Sorted sndGe (top_n_by_sum rows n) ∧
    List.Sorted rankLe (top_n_by_sum rows n) ∧
    (top_n_by_sum rows n).length = min n.toNat (numGroups rows) ∧
    (n ≤ 0 → top_n_by_sum rows n = []) ∧
    ((numGroups rows : Int) ≤ n → (top_n_by_sum rows n).Perm (groupSums rows)) ∧
    (∀ p ∈ top_n_by_sum rows n, p.1 ∈ sortedKeys rows ∧ p.2 = sumForKey rows p.1) := by
  have hlen : (List.insertionSort sndGe (groupSums rows)).length = numGroups rows := by
    rw [List.length_insertionSort]
    simp [groupSums, sortedKeys, numGroups, List.length_insertionSort]
  refine ⟨?_, ?_, ?_, ?_, ?_, ?_⟩
  · exact ((List.sorted_insertionSort sndGe (groupSums rows)).sublist
      (List.take_sublist _ _))
  · exact ((insertionSort_rankLe _ (groupSums_keys_pairwise rows)).sublist
      (List.take_sublist _ _))
  · rw [top_n_by_sum, List.length_take, hlen]
  · intro h
    rw [top_n_by_sum, Int.toNat_of_nonpos h, List.take_zero]
  · intro h
    have h2 : numGroups rows ≤ n.toNat := by omega
    rw [top_n_by_sum, List.take_of_length_le (by rw [hlen]; exact h2)]
    exact List.perm_insertionSort _ _
  · intro p hp
    have hp2 : p ∈ groupSums rows :=
      (List.mem_insertionSort sndGe).mp (List.take_subset _ _ hp)
    rcases List.mem_map.mp hp2 with ⟨k, hk, rfl⟩
    exact ⟨hk, rfl⟩

/-- C5 witness: the n = 0 contract and the all-groups case. -/
theorem top_n_by_sum_spec_witness :
    top_n_by_sum [("B", 5), ("A", 5), ("B", 3)] 0 = [] ∧
    (top_n_by_sum [("B", 5), ("A", 5), ("B", 3)] 5).Perm
      (groupSums [("B", 5), ("A", 5), ("B", 3)]) :=
  ⟨(top_n_by_sum_spec [("B", 5), ("A", 5), ("B", 3)] 0).2.2.2.1 (le_refl 0),
   (top_n_by_sum_spec [("B", 5), ("A", 5), ("B", 3)] 5).2.2.2.2.1 (by decide)⟩

end Startup
